import Mathlib

/-!
Shallow embedding of the kanban board logic in `src/Kanban Board/script.js`.

The DOM is modelled at the level the script manipulates it:
a card is a `div.card` holding an `h3` (title text), a `p` (description
text) and an optional `div.card-actions` that may hold an `.update` and a
`.delete` button; a column is a container with an `id`, an ordered list of
cards and an optional header count `span` showing a number.  Text content
set and read through the document-tree collaborator is modelled as the
string itself.  `localStorage` writes performed by a handler are collected
in a `List Snapshot` result component.
-/

namespace Kanban

/-- A persisted task: exactly the `{title, desc}` record that `saveData`
pushes for each card (script.js lines 40-43). -/
structure Task where
  title : String
  desc : String
deriving DecidableEq, Repr

/-- A rendered card: the title text (`h3`), description text (`p`), and
which pieces of the action area are present.  Cards built by
`createCardDOM` have all three present. -/
structure Card where
  title : String
  desc : String
  hasActions : Bool
  hasUpdate : Bool
  hasDelete : Bool
deriving DecidableEq, Repr

/-- A column container: its DOM `id`, its cards in display order, whether
a `.column-header span` exists, and the number that span currently
displays. -/
structure Column where
  id : String
  cards : List Card
  hasCountSpan : Bool
  count : Nat
deriving DecidableEq, Repr

/-- The board is the `document.querySelectorAll own list of columns, in
document order. -/
abbrev Board := List Column

/-- The persisted snapshot: `{ columnId: [{title, desc}, ...] }`, as an
association list in JS-object insertion order (script.js line 36-47). -/
abbrev Snapshot := List (String × List Task)

/-- script.js line 2: `const UPDATE_ALLOWED_COLUMNS = ['backlog', 'todo']`. -/
def UPDATE_ALLOWED_COLUMNS : List String := ["backlog", "todo"]

/-- The task a card represents: title and description text as read back
from the rendered card (`h3`/`p` textContent). -/
def cardTask (c : Card) : Task := { title := c.title, desc := c.desc }

/-- script.js lines 35-48, `saveData`: for each column in document order,
record its `id` and its cards as `{title, desc}` pairs; an emptied column
contributes an empty list. -/
def saveData (board : Board) : Snapshot :=
  board.map (fun c => (c.id, c.cards.map cardTask))

/-- script.js lines 97-111, `createCardDOM`: a fresh draggable card whose
innerHTML holds the title in `h3`, the description in `p`, and a
`card-actions` div containing an Update and a Delete button. -/
def createCardDOM (title desc : String) : Card :=
  { title := title, desc := desc, hasActions := true, hasUpdate := true, hasDelete := true }

/-- script.js lines 150-167, `updateCardButtons`: if the card has no
`.card-actions` container, return unchanged; otherwise create and prepend
an `.update` button when the column is allow-listed and none exists, and
remove the `.update` button when the column is not allow-listed and one
exists.  The two `if` statements of the source are kept sequential. -/
def updateCardButtons (card : Card) (columnId : String) : Card :=
  if card.hasActions = false then card
  else
    let needsUpdate := UPDATE_ALLOWED_COLUMNS.contains columnId
    let card1 := if needsUpdate && !card.hasUpdate then { card with hasUpdate := true } else card
    if !needsUpdate && card1.hasUpdate then { card1 with hasUpdate := false } else card1

/-- script.js lines 89-94, `updateCount`: if the column header span
exists, set its text to the number of cards in the column. -/
def updateCount (c : Column) : Column :=
  if c.hasCountSpan then { c with count := c.cards.length } else c

/-- script.js lines 55-58 (and again 73-74): remove every `.card` child of
a column, leaving the header (and its stale count) in place. -/
def clearCards (c : Column) : Column := { c with cards := [] }

/-- `document.getElementById` / `querySelector` based update: modify the
first column satisfying the predicate; if none exists, do nothing. -/
def modifyFirst (p : Column → Bool) (f : Column → Column) : Board → Board
  | [] => []
  | c :: rest => if p c then f c :: rest else c :: modifyFirst p f rest

/-- Positional update of one element of a list (used to model a handler
holding a DOM reference to a particular column or card). -/
def modifyAt {α : Type} (f : α → α) : Nat → List α → List α
  | _, [] => []
  | 0, x :: xs => f x :: xs
  | n + 1, x :: xs => x :: modifyAt f n xs

/-- script.js lines 68-86, body of the per-key rebuild loop of `loadData`:
clear the column's cards, append a freshly built card per snapshot entry
(applying the button policy for this column), then refresh the count. -/
def rebuildColumn (columnId : String) (tasks : List Task) (c : Column) : Column :=
  updateCount
    { c with cards := tasks.map (fun t => updateCardButtons (createCardDOM t.title t.desc) columnId) }

/-- script.js lines 50-87, `loadData`: with no stored data, return
untouched.  Otherwise first remove the cards of EVERY column (lines
55-58), then for each snapshot key locate the column by id (skipping keys
with no matching column) and rebuild it from the snapshot entry. -/
def loadData (board : Board) : Option Snapshot → Board
  | none => board
  | some data =>
    data.foldl
      (fun b kv => modifyFirst (fun c => c.id == kv.fst) (rebuildColumn kv.fst kv.snd) b)
      (board.map clearCards)

/-- The modal dialog: the process-wide `editingCard` reference (modelled
as column/card indices), the two form fields, and whether the overlay is
hidden. -/
structure ModalState where
  editingCard : Option (Nat × Nat)
  formTitle : String
  formDesc : String
  overlayHidden : Bool
deriving DecidableEq, Repr

/-- script.js lines 213-216, `closeModal`: hide the overlay and reset the
form fields to their (empty) defaults.  `editingCard` is not touched. -/
def closeModal (m : ModalState) : ModalState :=
  { m with overlayHidden := true, formTitle := "", formDesc := "" }

/-- script.js lines 221-224: the cancel button's click handler prevents
the default action and calls `closeModal`. -/
def cancelClick (m : ModalState) : ModalState := closeModal m

/-- script.js lines 226-228: a click on the overlay calls `closeModal`
only when the click target is the overlay itself (a backdrop click). -/
def overlayClick (m : ModalState) (targetIsOverlay : Bool) : ModalState :=
  if targetIsOverlay then closeModal m else m

/-- script.js lines 205-211, `openAddModal`: clear the edit target, reset
the form and show the dialog. -/
def openAddModal : ModalState :=
  { editingCard := none, formTitle := "", formDesc := "", overlayHidden := false }

/-- JS `String.prototype.trim`: strip leading and trailing whitespace.
Written structurally over the character list so that it evaluates inside
the kernel. -/
def trimJS (s : String) : String :=
  String.mk ((s.data.dropWhile Char.isWhitespace).reverse.dropWhile Char.isWhitespace).reverse

/-- script.js lines 231-254, the form submit handler: trim both fields; an
empty trimmed title aborts with nothing changed (the dialog stays open).
Otherwise either mutate the bound card's title and description in place
(edit mode) or append a new card to the first column with id `todo` (add
mode); then refresh every column's count, save, and close the modal. -/
def formSubmit (board : Board) (m : ModalState) : Board × ModalState × List Snapshot :=
  let title := trimJS m.formTitle
  let desc := trimJS m.formDesc
  if title = "" then (board, m, [])
  else
    let b1 :=
      match m.editingCard with
      | some rc =>
        modifyAt
          (fun c : Column =>
            { c with
              cards := modifyAt (fun card : Card => { card with title := title, desc := desc })
                rc.snd c.cards })
          rc.fst board
      | none =>
        modifyFirst (fun c => c.id == "todo")
          (fun c => { c with cards := c.cards ++ [createCardDOM title desc] }) board
    let b2 := b1.map updateCount
    (b2, closeModal m, [saveData b2])

/-- script.js lines 179-188, the delete branch of the click delegation:
with a confirmed prompt, remove the card, refresh its column's count and
save; a declined prompt does nothing. -/
def deleteClick (board : Board) (ci cj : Nat) (confirmed : Bool) : Board × List Snapshot :=
  if confirmed then
    let b1 := modifyAt (fun c => updateCount { c with cards := c.cards.eraseIdx cj }) ci board
    (b1, [saveData b1])
  else (board, [])

/-- script.js lines 138-146, the drop handler: when no card is being
dragged (modelled as the source position holding no card), do nothing.
Otherwise `appendChild` relocates the dragged card to the end of the drop
column, the button policy is reapplied for that column, only the drop
column's count is refreshed, and the board is saved. -/
def dropHandler (board : Board) (si j ti : Nat) : Board × List Snapshot :=
  match (board[si]?).bind (fun c => c.cards[j]?) with
  | none => (board, [])
  | some card =>
    let b1 := modifyAt (fun c => { c with cards := c.cards.eraseIdx j }) si board
    let b2 := modifyAt
      (fun c => updateCount { c with cards := c.cards ++ [updateCardButtons card c.id] }) ti b1
    (b2, [saveData b2])

/-- script.js lines 120-124, the dragend handler: clear the drag state and
save; the board itself is unchanged. -/
def dragendHandler (board : Board) : Board × List Snapshot := (board, [saveData board])

/-- One user-visible operation of the interaction controller. -/
inductive Op where
  | load (snap : Option Snapshot)
  | submit (m : ModalState)
  | deleteTask (ci cj : Nat) (confirmed : Bool)
  | dropTask (si j ti : Nat)
  | dragEnd
deriving Repr

/-- Board effect of one operation. -/
def execOp (board : Board) : Op → Board
  | .load snap => loadData board snap
  | .submit m => (formSubmit board m).fst
  | .deleteTask ci cj conf => (deleteClick board ci cj conf).fst
  | .dropTask si j ti => (dropHandler board si j ti).fst
  | .dragEnd => (dragendHandler board).fst

/-- Board reached after a sequence of operations. -/
def execOps (board : Board) (ops : List Op) : Board := ops.foldl execOp board

/-- A card is well formed for a column id when it has an actions container
and carries no update button if the column is outside the allow-list. -/
def cardOK (columnId : String) (card : Card) : Prop :=
  card.hasActions = true ∧
    (UPDATE_ALLOWED_COLUMNS.contains columnId = false → card.hasUpdate = false)

/-- Every card of the column is well formed for the column's id. -/
def colOK (c : Column) : Prop := ∀ card ∈ c.cards, cardOK c.id card

/-- Every column of the board is well formed. -/
def boardOK (b : Board) : Prop := ∀ c ∈ b, colOK c

/-! ## Basic lemmas -/

/-- Canonical form of `updateCardButtons`: with an actions container the
update button's presence afterwards equals the allow-list membership test;
without one the card is returned untouched.  All other fields are
preserved in either case. -/
theorem updateCardButtons_eq (card : Card) (columnId : String) :
    updateCardButtons card columnId =
      { card with
        hasUpdate :=
          if card.hasActions then UPDATE_ALLOWED_COLUMNS.contains columnId
          else card.hasUpdate } := by
  rcases card with ⟨t, d, a, u, del⟩
  cases a <;> cases u <;> by_cases hm : columnId ∈ UPDATE_ALLOWED_COLUMNS <;>
    simp [updateCardButtons, hm]

/-! ## Claim theorems (easy interaction claims) -/

/-- Claim C8: `updateCardButtons` is idempotent — applying it twice gives
the same card as applying it once, and applying it to a card whose update
affordance already matches the column policy leaves the card unchanged. -/
theorem c8_updateCardButtons_idempotent (card : Card) (columnId : String) :
    updateCardButtons (updateCardButtons card columnId) columnId
        = updateCardButtons card columnId
      ∧ (card.hasUpdate = UPDATE_ALLOWED_COLUMNS.contains columnId →
          updateCardButtons card columnId = card) := by
  rcases card with ⟨t, d, a, u, del⟩
  cases a <;> cases u <;> by_cases hm : columnId ∈ UPDATE_ALLOWED_COLUMNS <;>
    simp [updateCardButtons_eq, hm]

/-- Witness for C8 at a concrete card in column `todo`. -/
theorem c8_witness :
    updateCardButtons (updateCardButtons (Card.mk "t" "d" true true true) "todo") "todo"
        = updateCardButtons (Card.mk "t" "d" true true true) "todo"
      ∧ updateCardButtons (Card.mk "t" "d" true true true) "todo"
        = Card.mk "t" "d" true true true :=
  ⟨(c8_updateCardButtons_idempotent (Card.mk "t" "d" true true true) "todo").1,
   (c8_updateCardButtons_idempotent (Card.mk "t" "d" true true true) "todo").2 (by decide)⟩

/-- Claim C6: a delete click where the confirmation prompt is declined
changes nothing — the board (hence the task and every displayed count) is
untouched and no persistence write is issued. -/
theorem c6_delete_declined (board : Board) (ci cj : Nat) :
    deleteClick board ci cj false = (board, []) := rfl

/-- Claim C7: submitting the form with a title that is empty after
trimming leaves the board unchanged, performs no persistence write, and
leaves the modal state (hence the open dialog) exactly as it was. -/
theorem c7_empty_title_noop (board : Board) (m : ModalState)
    (h : trimJS m.formTitle = "") :
    formSubmit board m = (board, m, []) := by
  simp [formSubmit, h]

/-- Witness for C7: a whitespace-only title on an open add dialog. -/
theorem c7_witness :
    formSubmit [] (ModalState.mk none "   " "x" false)
      = ([], ModalState.mk none "   " "x" false, []) :=
  c7_empty_title_noop [] (ModalState.mk none "   " "x" false) (by decide)

/-- Claim C4 counterexample: dismissing the dialog via the cancel button
does NOT clear the process-wide edit-target reference — `closeModal` only
hides the overlay and resets the form, so `editingCard` is still bound
afterwards, refuting "the edit-target reference is cleared". -/
theorem c4_counterexample :
    (cancelClick (ModalState.mk (some (0, 0)) "x" "y" false)).editingCard ≠ none := by
  decide

/-- Claim C4 (amended): every dialog dismissal (cancel click, backdrop
click on the overlay) runs `closeModal`, which discards the in-progress
field edits (form reset) and hides the dialog without confirmation, but
leaves the edit-target reference exactly as it was; a click inside the
dialog that is not on the overlay itself does nothing. -/
theorem c4_amended_dismissal (m : ModalState) :
    cancelClick m = closeModal m
      ∧ overlayClick m true = closeModal m
      ∧ overlayClick m false = m
      ∧ (closeModal m).formTitle = ""
      ∧ (closeModal m).formDesc = ""
      ∧ (closeModal m).overlayHidden = true
      ∧ (closeModal m).editingCard = m.editingCard :=
  ⟨rfl, rfl, rfl, rfl, rfl, rfl, rfl⟩

/-- Claim C5 counterexample: the card built by `createCardDOM` carries the
update affordance unconditionally — it is present even though the column
policy denies it for, e.g., column `done`; conditionality only comes from
a later `updateCardButtons` call, refuting "contains an update affordance
only when the column policy grants it". -/
theorem c5_counterexample :
    (createCardDOM "Task A" "text").hasUpdate = true
      ∧ UPDATE_ALLOWED_COLUMNS.contains "done" = false := by
  decide

/-- Claim C5 (amended): `createCardDOM` builds a card with a title region,
a description region, and an action region containing BOTH the delete and
the update affordance unconditionally; the update affordance is made to
match the column policy only by the subsequent `updateCardButtons` call. -/
theorem c5_amended_createCardDOM (title desc : String) :
    (createCardDOM title desc).title = title
      ∧ (createCardDOM title desc).desc = desc
      ∧ (createCardDOM title desc).hasActions = true
      ∧ (createCardDOM title desc).hasDelete = true
      ∧ (createCardDOM title desc).hasUpdate = true
      ∧ ∀ columnId,
          (updateCardButtons (createCardDOM title desc) columnId).hasUpdate
            = UPDATE_ALLOWED_COLUMNS.contains columnId := by
  refine ⟨rfl, rfl, rfl, rfl, rfl, fun columnId => ?_⟩
  simp [updateCardButtons_eq, createCardDOM]

/-! ## Lemmas about `modifyFirst` and the load fold -/

/-- An element that fails the predicate is untouched by `modifyFirst`,
wherever it sits. -/
theorem modifyFirst_get?_of_p_false (p : Column → Bool) (f : Column → Column) :
    ∀ (l : Board) (i : Nat) (c : Column), l[i]? = some c → p c = false →
      (modifyFirst p f l)[i]? = some c := by
  intro l
  induction l with
  | nil => intro i c h _; simp at h
  | cons x xs ih =>
    intro i c h hp
    cases i with
    | zero =>
      rw [List.getElem?_cons_zero] at h
      injection h with h
      subst h
      simp [modifyFirst, hp]
    | succ n =>
      rw [List.getElem?_cons_succ] at h
      cases hx : p x
      · simp only [modifyFirst, hx, Bool.false_eq_true, if_false, List.getElem?_cons_succ]
        exact ih n c h hp
      · simp only [modifyFirst, hx, if_true, List.getElem?_cons_succ]
        exact h

/-- A column whose id matches no snapshot key is untouched by the rebuild
fold of `loadData`. -/
theorem rebuildFold_get?_of_absent :
    ∀ (snap : Snapshot) (b : Board) (i : Nat) (c : Column),
      b[i]? = some c →
      (∀ kv ∈ snap, (kv.fst == c.id) = false) →
      (snap.foldl
          (fun b kv => modifyFirst (fun col => col.id == kv.fst) (rebuildColumn kv.fst kv.snd) b)
          b)[i]? = some c := by
  intro snap
  induction snap with
  | nil => intro b i c h _; simpa using h
  | cons kv rest ih =>
    intro b i c h habs
    have hkv : (kv.fst == c.id) = false := habs kv (List.mem_cons_self kv rest)
    have hp : (c.id == kv.fst) = false :=
      beq_eq_false_iff_ne.mpr (fun he => (beq_eq_false_iff_ne.mp hkv) he.symm)
    have hstep := modifyFirst_get?_of_p_false (fun col => col.id == kv.fst)
      (rebuildColumn kv.fst kv.snd) b i c h hp
    exact ih _ i c hstep (fun kv hm => habs kv (List.mem_cons_of_mem _ hm))

/-- Claim C2 counterexample: rebuilding from a non-null snapshot that
omits column `done` does NOT leave `done`'s rendered cards in place —
`loadData` first removes the cards of every column, so `done` ends up
empty (with a stale header count), refuting "its cards are not removed". -/
theorem c2_counterexample :
    (loadData
        [Column.mk "todo" [Card.mk "A" "x" true true true] true 1,
         Column.mk "done" [Card.mk "B" "y" true false true] true 1]
        (some [("todo", [Task.mk "A" "x"])]))[1]?
        = some (Column.mk "done" [] true 1)
      ∧ ([] : List Card) ≠ [Card.mk "B" "y" true false true] := by
  decide

/-- Claim C2 (amended): when rebuilding from a non-null snapshot, every
column present in the layout first has all its rendered cards removed;
a column whose id is absent from every snapshot key therefore ends up
with no cards at all (and its displayed header count is left stale),
rather than keeping its cards. -/
theorem c2_amended_absent_column_cleared (board : Board) (snap : Snapshot) (i : Nat)
    (c : Column) (hc : board[i]? = some c)
    (habs : ∀ kv ∈ snap, (kv.fst == c.id) = false) :
    (loadData board (some snap))[i]? = some (clearCards c) := by
  have hstart : (board.map clearCards)[i]? = some (clearCards c) := by
    rw [List.getElem?_map, hc]; rfl
  have habs' : ∀ kv ∈ snap, (kv.fst == (clearCards c).id) = false := habs
  simpa [loadData] using rebuildFold_get?_of_absent snap (board.map clearCards) i
    (clearCards c) hstart habs'

/-- Witness for C2 (amended): column `done` is absent from a snapshot that
only mentions `todo`; after the load it is empty with its old count. -/
theorem c2_amended_witness :
    (loadData
        [Column.mk "todo" [Card.mk "A" "x" true true true] true 1,
         Column.mk "done" [Card.mk "B" "y" true false true] true 1]
        (some [("todo", [Task.mk "A" "x"])]))[1]?
      = some (clearCards (Column.mk "done" [Card.mk "B" "y" true false true] true 1)) :=
  c2_amended_absent_column_cleared
    [Column.mk "todo" [Card.mk "A" "x" true true true] true 1,
     Column.mk "done" [Card.mk "B" "y" true false true] true 1]
    [("todo", [Task.mk "A" "x"])] 1
    (Column.mk "done" [Card.mk "B" "y" true false true] true 1)
    (by decide) (by decide)

/-! ## Claim C10: snapshots written by `saveData` are total -/

/-- A sample board layout with the four columns of the page and distinct
ids, used by concrete witnesses. -/
def sampleBoard : Board :=
  [Column.mk "backlog" [] true 0,
   Column.mk "todo" [Card.mk "A" "x" true true true] true 1,
   Column.mk "in-progress" [Card.mk "B" "y" true false true] true 1,
   Column.mk "done" [] true 0]

/-- With distinct column ids, looking up any column's id in the snapshot
written by `saveData` yields exactly that column's task list. -/
theorem saveData_lookup :
    ∀ (board : Board), (board.map Column.id).Nodup →
      ∀ c ∈ board, (saveData board).lookup c.id = some (c.cards.map cardTask) := by
  intro board
  induction board with
  | nil => intro _ c hc; simp at hc
  | cons x xs ih =>
    intro h c hc
    rcases List.nodup_cons.mp h with ⟨hx, htail⟩
    rcases List.mem_cons.mp hc with rfl | hmem
    · simp [saveData, List.lookup]
    · have hne : (c.id == x.id) = false := by
        refine beq_eq_false_iff_ne.mpr (fun he => hx ?_)
        rw [← he]
        exact List.mem_map_of_mem Column.id hmem
      simpa [saveData, List.lookup, hne] using ih htail c hmem

/-- Claim C10: the snapshot written by `saveData` has exactly one key per
column of the current layout, in layout order; every column's id occurs
among the keys (so the absent-column branch of the rebuild can never fire
on a program-written snapshot), and each key maps to that column's
(possibly empty) task list. -/
theorem c10_saveData_total (board : Board) (h : (board.map Column.id).Nodup) :
    (saveData board).map Prod.fst = board.map Column.id
      ∧ (∀ c ∈ board, c.id ∈ (saveData board).map Prod.fst)
      ∧ ∀ c ∈ board, (saveData board).lookup c.id = some (c.cards.map cardTask) := by
  have hkeys : (saveData board).map Prod.fst = board.map Column.id := by
    simp [saveData, List.map_map]
  refine ⟨hkeys, ?_, saveData_lookup board h⟩
  intro c hc
  rw [hkeys]
  exact List.mem_map_of_mem Column.id hc

/-- Witness for C10 on the sample board (which includes an empty column,
persisted as an empty list rather than omitted). -/
theorem c10_witness :
    (saveData sampleBoard).map Prod.fst = sampleBoard.map Column.id
      ∧ (∀ c ∈ sampleBoard, c.id ∈ (saveData sampleBoard).map Prod.fst)
      ∧ ∀ c ∈ sampleBoard,
          (saveData sampleBoard).lookup c.id = some (c.cards.map cardTask) :=
  c10_saveData_total sampleBoard (by decide)

/-! ## Lemmas about `modifyAt` and the drop handler -/

/-- `modifyAt` applies the function at the targeted position. -/
theorem modifyAt_getElem?_self {α : Type} (f : α → α) :
    ∀ (i : Nat) (l : List α), (modifyAt f i l)[i]? = (l[i]?).map f := by
  intro i l
  induction l generalizing i with
  | nil => simp [modifyAt]
  | cons x xs ih =>
    cases i with
    | zero => simp [modifyAt]
    | succ n => simpa [modifyAt] using ih n

/-- `modifyAt` leaves every other position untouched. -/
theorem modifyAt_getElem?_ne {α : Type} (f : α → α) :
    ∀ (i j : Nat) (l : List α), i ≠ j → (modifyAt f i l)[j]? = l[j]? := by
  intro i j l
  induction l generalizing i j with
  | nil => intro _; simp [modifyAt]
  | cons x xs ih =>
    intro hne
    cases i with
    | zero =>
      cases j with
      | zero => exact absurd rfl hne
      | succ m => simp [modifyAt]
    | succ n =>
      cases j with
      | zero => simp [modifyAt]
      | succ m =>
        simp only [modifyAt, List.getElem?_cons_succ]
        exact ih n m (fun h => hne (by rw [h]))

/-- Unfolding of the drop handler when a dragged card is present. -/
theorem dropHandler_eq_of_some (board : Board) (si j ti : Nat) (card : Card)
    (hsome : (board[si]?).bind (fun c => c.cards[j]?) = some card) :
    dropHandler board si j ti =
      (modifyAt
          (fun c => updateCount { c with cards := c.cards ++ [updateCardButtons card c.id] }) ti
          (modifyAt (fun c => { c with cards := c.cards.eraseIdx j }) si board),
        [saveData
          (modifyAt
            (fun c => updateCount { c with cards := c.cards ++ [updateCardButtons card c.id] }) ti
            (modifyAt (fun c => { c with cards := c.cards.eraseIdx j }) si board))]) := by
  unfold dropHandler
  rw [hsome]

/-- Unfolding of the drop handler when no card is being dragged. -/
theorem dropHandler_eq_of_none (board : Board) (si j ti : Nat)
    (hnone : (board[si]?).bind (fun c => c.cards[j]?) = none) :
    dropHandler board si j ti = (board, []) := by
  unfold dropHandler
  rw [hnone]

/-- Claim C3 counterexample: dropping the only card of column `todo`
(displayed count 1) into column `done` leaves `todo` displaying count 1
over zero cards — the drop handler refreshes only the target column's
header count, so the source column's displayed count does not decrease. -/
theorem c3_counterexample :
    ((dropHandler
        [Column.mk "todo" [Card.mk "A" "x" true true true] true 1,
         Column.mk "done" [] true 0]
        0 0 1).fst)[0]?
        = some (Column.mk "todo" [] true 1)
      ∧ (1 : Nat) ≠ 0 := by
  decide

/-- Claim C3 (amended): dropping a dragged card from column A (position
`si`, card index `j`) into a distinct column B (position `ti`) relocates
the card to the end of B's order with its task text intact, reapplies the
button policy so the update affordance is present iff B's id is in the
allow-list (the card having an actions region), refreshes B's displayed
header count to B's new card total, and persists the board — but A's
displayed header count is left stale: only its card list shrinks. -/
theorem c3_amended_drop (board : Board) (si j ti : Nat) (A B : Column) (card : Card)
    (hA : board[si]? = some A) (hB : board[ti]? = some B) (hne : si ≠ ti)
    (hcard : A.cards[j]? = some card) (hact : card.hasActions = true)
    (hspan : B.hasCountSpan = true) :
    ((dropHandler board si j ti).fst)[ti]?
        = some { B with cards := B.cards ++ [updateCardButtons card B.id],
                        count := B.cards.length + 1 }
      ∧ ((dropHandler board si j ti).fst)[si]?
        = some { A with cards := A.cards.eraseIdx j }
      ∧ (updateCardButtons card B.id).hasUpdate = UPDATE_ALLOWED_COLUMNS.contains B.id
      ∧ cardTask (updateCardButtons card B.id) = cardTask card
      ∧ (dropHandler board si j ti).snd = [saveData (dropHandler board si j ti).fst] := by
  have hsome : (board[si]?).bind (fun c => c.cards[j]?) = some card := by
    rw [hA]; simpa using hcard
  have hd := dropHandler_eq_of_some board si j ti card hsome
  rw [hd]
  refine ⟨?_, ?_, ?_, ?_, rfl⟩
  · rw [modifyAt_getElem?_self, modifyAt_getElem?_ne _ si ti _ hne, hB]
    simp [updateCount, hspan]
  · rw [modifyAt_getElem?_ne _ ti si _ (fun h => hne h.symm), modifyAt_getElem?_self, hA]
    rfl
  · rw [updateCardButtons_eq]
    simp [hact]
  · rw [updateCardButtons_eq]
    rfl

/-- Witness for C3 (amended): drop the card of `todo` onto `done` in the
sample board. -/
theorem c3_witness :
    ((dropHandler sampleBoard 1 0 3).fst)[3]?
        = some { Column.mk "done" [] true 0 with
                 cards := (Column.mk "done" [] true 0).cards
                   ++ [updateCardButtons (Card.mk "A" "x" true true true)
                        (Column.mk "done" [] true 0).id],
                 count := (Column.mk "done" [] true 0).cards.length + 1 }
      ∧ ((dropHandler sampleBoard 1 0 3).fst)[1]?
        = some { Column.mk "todo" [Card.mk "A" "x" true true true] true 1 with
                 cards := (Column.mk "todo" [Card.mk "A" "x" true true true] true 1).cards.eraseIdx 0 }
      ∧ (updateCardButtons (Card.mk "A" "x" true true true)
            (Column.mk "done" [] true 0).id).hasUpdate
          = UPDATE_ALLOWED_COLUMNS.contains (Column.mk "done" [] true 0).id
      ∧ cardTask (updateCardButtons (Card.mk "A" "x" true true true)
            (Column.mk "done" [] true 0).id)
          = cardTask (Card.mk "A" "x" true true true)
      ∧ (dropHandler sampleBoard 1 0 3).snd
          = [saveData (dropHandler sampleBoard 1 0 3).fst] :=
  c3_amended_drop sampleBoard 1 0 3
    (Column.mk "todo" [Card.mk "A" "x" true true true] true 1)
    (Column.mk "done" [] true 0)
    (Card.mk "A" "x" true true true)
    rfl rfl (by decide) rfl rfl rfl

/-! ## Claim C9: the update affordance never survives outside the allow-list -/

/-- `updateCount` does not change a column's id. -/
@[simp] theorem updateCount_id (c : Column) : (updateCount c).id = c.id := by
  unfold updateCount; split <;> rfl

/-- `updateCount` does not change a column's cards. -/
@[simp] theorem updateCount_cards (c : Column) : (updateCount c).cards = c.cards := by
  unfold updateCount; split <;> rfl

/-- `rebuildColumn` does not change a column's id. -/
@[simp] theorem rebuildColumn_id (cid : String) (ts : List Task) (c : Column) :
    (rebuildColumn cid ts c).id = c.id := by
  simp [rebuildColumn]

/-- The cards produced by `rebuildColumn`. -/
theorem rebuildColumn_cards (cid : String) (ts : List Task) (c : Column) :
    (rebuildColumn cid ts c).cards
      = ts.map (fun t => updateCardButtons (createCardDOM t.title t.desc) cid) := by
  simp [rebuildColumn]

/-- Applying the button policy to a card with an actions container makes
it well formed for that column. -/
theorem cardOK_ucb_self (card : Card) (cid : String) (hact : card.hasActions = true) :
    cardOK cid (updateCardButtons card cid) := by
  rw [updateCardButtons_eq]
  refine ⟨by simp [hact], fun hc => ?_⟩
  simp only [hact, if_true]
  exact hc

/-- A rebuilt column is well formed whenever its id matches the snapshot
key it was rebuilt from. -/
theorem colOK_rebuildColumn (cid : String) (ts : List Task) (c : Column)
    (hid : c.id = cid) : colOK (rebuildColumn cid ts c) := by
  intro card hcard
  rw [rebuildColumn_cards] at hcard
  rcases List.mem_map.mp hcard with ⟨t, _, rfl⟩
  rw [rebuildColumn_id, hid]
  exact cardOK_ucb_self _ cid rfl

/-- Refreshing the count preserves column well-formedness. -/
theorem colOK_updateCount (c : Column) (h : colOK c) : colOK (updateCount c) := by
  intro card hcard
  rw [updateCount_cards] at hcard
  rw [updateCount_id]
  exact h card hcard

/-- `modifyAt` preserves a pointwise property preserved by the function. -/
theorem forall_mem_modifyAt {α : Type} (P : α → Prop) (f : α → α)
    (hf : ∀ x, P x → P (f x)) :
    ∀ (i : Nat) (l : List α), (∀ x ∈ l, P x) → ∀ x ∈ modifyAt f i l, P x := by
  intro i l
  induction l generalizing i with
  | nil => intro _ x hx; simp [modifyAt] at hx
  | cons y ys ih =>
    intro h x hx
    cases i with
    | zero =>
      rcases List.mem_cons.mp hx with rfl | hx'
      · exact hf y (h y (List.mem_cons_self y ys))
      · exact h x (List.mem_cons_of_mem y hx')
    | succ n =>
      rcases List.mem_cons.mp hx with rfl | hx'
      · exact h x (List.mem_cons_self x ys)
      · exact ih n (fun z hz => h z (List.mem_cons_of_mem y hz)) x hx'

/-- `modifyFirst` preserves a pointwise property preserved by the function
on matching columns. -/
theorem forall_mem_modifyFirst (P : Column → Prop) (p : Column → Bool) (f : Column → Column)
    (hf : ∀ c, p c = true → P c → P (f c)) :
    ∀ (l : Board), (∀ c ∈ l, P c) → ∀ c ∈ modifyFirst p f l, P c := by
  intro l
  induction l with
  | nil => intro _ c hc; simp [modifyFirst] at hc
  | cons x xs ih =>
    intro h c hc
    cases hx : p x with
    | true =>
      rw [modifyFirst, if_pos hx] at hc
      rcases List.mem_cons.mp hc with rfl | hc'
      · exact hf x hx (h x (List.mem_cons_self x xs))
      · exact h c (List.mem_cons_of_mem x hc')
    | false =>
      rw [modifyFirst, if_neg (by simp [hx])] at hc
      rcases List.mem_cons.mp hc with rfl | hc'
      · exact h c (List.mem_cons_self c xs)
      · exact ih (fun z hz => h z (List.mem_cons_of_mem x hz)) c hc'

/-- The rebuild fold of `loadData` keeps the board well formed. -/
theorem boardOK_rebuildFold :
    ∀ (data : Snapshot) (b : Board), boardOK b →
      boardOK (data.foldl
        (fun b kv => modifyFirst (fun c => c.id == kv.fst) (rebuildColumn kv.fst kv.snd) b) b) := by
  intro data
  induction data with
  | nil => intro b h; exact h
  | cons kv rest ih =>
    intro b h
    rw [List.foldl_cons]
    refine ih _ (forall_mem_modifyFirst colOK _ _ (fun c hp _ => ?_) b h)
    exact colOK_rebuildColumn kv.fst kv.snd c (eq_of_beq hp)

/-- `loadData` keeps (and for loaded columns, establishes) board
well-formedness. -/
theorem boardOK_loadData (b : Board) (s : Option Snapshot) (h : boardOK b) :
    boardOK (loadData b s) := by
  cases s with
  | none => exact h
  | some data =>
    refine boardOK_rebuildFold data (b.map clearCards) ?_
    intro c hc
    rcases List.mem_map.mp hc with ⟨c', _, rfl⟩
    intro card hcard
    simp [clearCards] at hcard

/-- Refreshing every count preserves board well-formedness. -/
theorem boardOK_map_updateCount (b : Board) (h : boardOK b) :
    boardOK (b.map updateCount) := by
  intro c hc
  rcases List.mem_map.mp hc with ⟨c', hc', rfl⟩
  exact colOK_updateCount c' (h c' hc')

/-- The form submit handler keeps the board well formed: an in-place edit
touches only text, and an add puts a fresh (fully buttoned) card into the
allow-listed `todo` column. -/
theorem boardOK_formSubmit (b : Board) (m : ModalState) (h : boardOK b) :
    boardOK (formSubmit b m).fst := by
  unfold formSubmit
  by_cases ht : trimJS m.formTitle = ""
  · simpa [ht] using h
  · simp only [ht, if_neg ht]
    refine boardOK_map_updateCount _ ?_
    cases hrc : m.editingCard with
    | some rc =>
      refine forall_mem_modifyAt colOK _ (fun c hc => ?_) rc.fst b h
      intro card hcard
      have : ∀ card ∈ c.cards, cardOK c.id card := hc
      refine forall_mem_modifyAt (cardOK c.id) _ (fun x hx => ?_) rc.snd c.cards this card hcard
      exact ⟨hx.1, hx.2⟩
    | none =>
      refine forall_mem_modifyFirst colOK _ _ (fun c hp hc => ?_) b h
      intro card hcard
      rcases List.mem_append.mp hcard with hold | hnew
      · exact hc card hold
      · have hcc : card = createCardDOM (trimJS m.formTitle) (trimJS m.formDesc) := by
          simpa using hnew
        subst hcc
        refine ⟨rfl, fun hfalse => ?_⟩
        rw [eq_of_beq hp] at hfalse
        exact absurd hfalse (by decide)

/-- The delete handler keeps the board well formed. -/
theorem boardOK_deleteClick (b : Board) (ci cj : Nat) (confirmed : Bool) (h : boardOK b) :
    boardOK (deleteClick b ci cj confirmed).fst := by
  cases confirmed with
  | false => exact h
  | true =>
    refine forall_mem_modifyAt colOK _ (fun c hc => ?_) ci b h
    refine colOK_updateCount _ ?_
    intro card hcard
    exact hc card (List.eraseIdx_subset c.cards cj hcard)

/-- The drop handler keeps the board well formed: the relocated card gets
the policy of its new column reapplied. -/
theorem boardOK_dropHandler (b : Board) (si j ti : Nat) (h : boardOK b) :
    boardOK (dropHandler b si j ti).fst := by
  cases hm : (b[si]?).bind (fun c => c.cards[j]?) with
  | none =>
    rw [dropHandler_eq_of_none b si j ti hm]
    exact h
  | some card =>
    rw [dropHandler_eq_of_some b si j ti card hm]
    have hact : card.hasActions = true := by
      rcases Option.bind_eq_some.mp hm with ⟨A, hA, hcard⟩
      exact ((h A (List.getElem?_mem hA)) card (List.getElem?_mem hcard)).1
    have hb1 : boardOK (modifyAt (fun c => { c with cards := c.cards.eraseIdx j }) si b) := by
      refine forall_mem_modifyAt colOK _ (fun c hc => ?_) si b h
      intro x hx
      exact hc x (List.eraseIdx_subset c.cards j hx)
    refine forall_mem_modifyAt colOK _ (fun c hc => ?_) ti _ hb1
    refine colOK_updateCount _ ?_
    intro x hx
    rcases List.mem_append.mp hx with hold | hnew
    · exact hc x hold
    · have hxx : x = updateCardButtons card c.id := by simpa using hnew
      subst hxx
      exact cardOK_ucb_self card c.id hact

/-- Every operation of the interaction controller keeps the board well
formed. -/
theorem boardOK_execOp (b : Board) (op : Op) (h : boardOK b) : boardOK (execOp b op) := by
  cases op with
  | load snap => exact boardOK_loadData b snap h
  | submit m => exact boardOK_formSubmit b m h
  | deleteTask ci cj conf => exact boardOK_deleteClick b ci cj conf h
  | dropTask si j ti => exact boardOK_dropHandler b si j ti h
  | dragEnd => exact h

/-- Well-formedness is preserved along any operation sequence. -/
theorem boardOK_execOps (ops : List Op) :
    ∀ (b : Board), boardOK b → boardOK (execOps b ops) := by
  induction ops with
  | nil => intro b h; exact h
  | cons op rest ih => intro b h; exact ih (execOp b op) (boardOK_execOp b op h)

instance (cid : String) (card : Card) : Decidable (cardOK cid card) := by
  unfold cardOK; infer_instance

instance (c : Column) : Decidable (colOK c) := by
  unfold colOK; exact List.decidableBAll _ _

instance (b : Board) : Decidable (boardOK b) := by
  unfold boardOK; exact List.decidableBAll _ _

/-- Claim C9: starting from any well-formed board (e.g. an empty layout,
or one just rebuilt from a snapshot), no reachable state of the operation
sequence (load, add, edit, delete, move) ever shows a card carrying the
update affordance while residing in a column outside the allow-list; in
particular editing (a `submit` with a bound edit target) never introduces
one, since the policy is derived from the column. -/
theorem c9_no_update_outside_allowlist (init : Board) (ops : List Op)
    (h : boardOK init) :
    ∀ c ∈ execOps init ops, UPDATE_ALLOWED_COLUMNS.contains c.id = false →
      ∀ card ∈ c.cards, card.hasUpdate = false :=
  fun c hc hid card hcard => ((boardOK_execOps ops init h) c hc card hcard).2 hid

/-- Witness for C9: the sample board is well formed; after moving the
`todo` card into `done`, the relocated card sits in the non-allow-listed
`done` column with no update affordance. -/
theorem c9_witness :
    Column.mk "done" [Card.mk "A" "x" true false true] true 1
        ∈ execOps sampleBoard [Op.dropTask 1 0 3]
      ∧ (Card.mk "A" "x" true false true).hasUpdate = false :=
  ⟨by decide,
   c9_no_update_outside_allowlist sampleBoard [Op.dropTask 1 0 3] (by decide)
     (Column.mk "done" [Card.mk "A" "x" true false true] true 1) (by decide) (by decide)
     (Card.mk "A" "x" true false true) (by decide)⟩

/-! ## Claim C1: the save/load round trip preserves tasks per column -/

/-- Rebuilding a card from its persisted task reproduces the task: the
title and description survive `createCardDOM` plus the button policy. -/
theorem cardTask_build (cid : String) (t : Task) :
    cardTask (updateCardButtons (createCardDOM t.title t.desc) cid) = t := by
  rw [updateCardButtons_eq]
  cases t
  rfl

/-- The tasks of a rebuilt column are exactly the snapshot entry it was
rebuilt from. -/
theorem rebuildColumn_tasks (cid : String) (ts : List Task) (c : Column) :
    (rebuildColumn cid ts c).cards.map cardTask = ts := by
  rw [rebuildColumn_cards, List.map_map]
  exact List.map_id'' (fun t => cardTask_build cid t) ts

/-- The rebuild fold ignores a head column whose id matches no key. -/
theorem rebuildFold_skip_head :
    ∀ (es : Snapshot) (x : Column) (b : Board),
      (∀ kv ∈ es, (x.id == kv.fst) = false) →
      es.foldl
          (fun b kv => modifyFirst (fun c => c.id == kv.fst) (rebuildColumn kv.fst kv.snd) b)
          (x :: b)
        = x :: es.foldl
            (fun b kv => modifyFirst (fun c => c.id == kv.fst) (rebuildColumn kv.fst kv.snd) b)
            b := by
  intro es
  induction es with
  | nil => intro x b _; rfl
  | cons kv rest ih =>
    intro x b hx
    have h1 : (x.id == kv.fst) = false := hx kv (List.mem_cons_self kv rest)
    rw [List.foldl_cons, List.foldl_cons,
      show modifyFirst (fun c => c.id == kv.fst) (rebuildColumn kv.fst kv.snd) (x :: b)
          = x :: modifyFirst (fun c => c.id == kv.fst) (rebuildColumn kv.fst kv.snd) b from by
        simp [modifyFirst, h1]]
    exact ih x _ (fun kv' h' => hx kv' (List.mem_cons_of_mem kv h'))

/-- With distinct column ids, the rebuild fold over a total `saveData`
snapshot rebuilds each column exactly once, from its own entry. -/
theorem rebuildFold_saveData :
    ∀ (bs : Board), (bs.map Column.id).Nodup →
      (saveData bs).foldl
          (fun b kv => modifyFirst (fun c => c.id == kv.fst) (rebuildColumn kv.fst kv.snd) b)
          (bs.map clearCards)
        = bs.map (fun c => rebuildColumn c.id (c.cards.map cardTask) (clearCards c)) := by
  intro bs
  induction bs with
  | nil => intro _; rfl
  | cons c rest ih =>
    intro h
    rcases List.nodup_cons.mp h with ⟨hc, htail⟩
    have e1 : saveData (c :: rest) = (c.id, c.cards.map cardTask) :: saveData rest := rfl
    have e2 : (c :: rest).map clearCards = clearCards c :: rest.map clearCards := rfl
    rw [e1, e2, List.foldl_cons,
      show modifyFirst (fun col => col.id == c.id) (rebuildColumn c.id (c.cards.map cardTask))
            (clearCards c :: rest.map clearCards)
          = rebuildColumn c.id (c.cards.map cardTask) (clearCards c) :: rest.map clearCards from by
        simp [modifyFirst, clearCards]]
    have hkeys : ∀ kv ∈ saveData rest,
        ((rebuildColumn c.id (c.cards.map cardTask) (clearCards c)).id == kv.fst) = false := by
      intro kv hkv
      rcases List.mem_map.mp hkv with ⟨c', hc', rfl⟩
      rw [rebuildColumn_id]
      refine beq_eq_false_iff_ne.mpr (fun he => hc ?_)
      rw [show (clearCards c).id = c.id from rfl] at he
      rw [he]
      exact List.mem_map_of_mem Column.id hc'
    rw [rebuildFold_skip_head (saveData rest) _ (rest.map clearCards) hkeys, ih htail]
    rfl

/-- For any board with distinct column ids, `loadData` applied to the
snapshot `saveData` just wrote reproduces the same tasks per column, in
the same order. -/
theorem loadData_saveData_roundtrip (board : Board) (h : (board.map Column.id).Nodup) :
    (loadData board (some (saveData board))).map (fun c => (c.id, c.cards.map cardTask))
      = board.map (fun c => (c.id, c.cards.map cardTask)) := by
  show ((saveData board).foldl _ (board.map clearCards)).map _ = _
  rw [rebuildFold_saveData board h, List.map_map]
  refine List.map_congr_left (fun c _ => ?_)
  simp [Function.comp, rebuildColumn_tasks, clearCards]

/-- `modifyAt` preserves any projection the function preserves. -/
theorem modifyAt_map {α β : Type} (g : α → β) (f : α → α) (hf : ∀ x, g (f x) = g x) :
    ∀ (i : Nat) (l : List α), (modifyAt f i l).map g = l.map g := by
  intro i l
  induction l generalizing i with
  | nil => simp [modifyAt]
  | cons x xs ih =>
    cases i with
    | zero => simp [modifyAt, hf]
    | succ n => simp [modifyAt, ih n]

/-- `modifyFirst` preserves the id listing when the function keeps ids. -/
theorem modifyFirst_map_id (f : Column → Column) (p : Column → Bool)
    (hf : ∀ c, (f c).id = c.id) :
    ∀ (l : Board), (modifyFirst p f l).map Column.id = l.map Column.id := by
  intro l
  induction l with
  | nil => rfl
  | cons x xs ih =>
    cases hx : p x with
    | true => simp [modifyFirst, hx, hf]
    | false => simp [modifyFirst, hx, ih]

/-- `loadData` never changes which columns exist or their order. -/
theorem loadData_map_id (b : Board) (s : Option Snapshot) :
    (loadData b s).map Column.id = b.map Column.id := by
  cases s with
  | none => rfl
  | some data =>
    have hfold : ∀ (data : Snapshot) (b0 : Board),
        (data.foldl
            (fun bb kv => modifyFirst (fun c => c.id == kv.fst) (rebuildColumn kv.fst kv.snd) bb)
            b0).map Column.id
          = b0.map Column.id := by
      intro data
      induction data with
      | nil => intro b0; rfl
      | cons kv rest ih =>
        intro b0
        rw [List.foldl_cons, ih, modifyFirst_map_id _ _ (fun c => by simp) b0]
    have hclear : (b.map clearCards).map Column.id = b.map Column.id := by
      rw [List.map_map]
      exact List.map_congr_left (fun c _ => rfl)
    exact (hfold data (b.map clearCards)).trans hclear

/-- The submit handler never changes which columns exist or their order. -/
theorem formSubmit_map_id (b : Board) (m : ModalState) :
    ((formSubmit b m).fst).map Column.id = b.map Column.id := by
  have hmap : ∀ b1 : Board, (b1.map updateCount).map Column.id = b1.map Column.id := by
    intro b1
    rw [List.map_map]
    exact List.map_congr_left (fun c _ => updateCount_id c)
  by_cases ht : trimJS m.formTitle = ""
  · simp [formSubmit, ht]
  · cases hrc : m.editingCard with
    | some rc =>
      have hfst : (formSubmit b m).fst
          = (modifyAt
              (fun c : Column =>
                { c with
                  cards := modifyAt
                    (fun card : Card =>
                      { card with title := trimJS m.formTitle, desc := trimJS m.formDesc })
                    rc.snd c.cards })
              rc.fst b).map updateCount := by
        simp [formSubmit, ht, hrc]
      rw [hfst, hmap]
      exact modifyAt_map Column.id
        (fun c : Column =>
          { c with
            cards := modifyAt
              (fun card : Card =>
                { card with title := trimJS m.formTitle, desc := trimJS m.formDesc })
              rc.snd c.cards })
        (fun c => rfl) rc.fst b
    | none =>
      have hfst : (formSubmit b m).fst
          = (modifyFirst (fun c => c.id == "todo")
              (fun c =>
                { c with cards := c.cards ++ [createCardDOM (trimJS m.formTitle) (trimJS m.formDesc)] })
              b).map updateCount := by
        simp [formSubmit, ht, hrc]
      rw [hfst, hmap]
      exact modifyFirst_map_id
        (fun c =>
          { c with cards := c.cards ++ [createCardDOM (trimJS m.formTitle) (trimJS m.formDesc)] })
        (fun c => c.id == "todo") (fun c => rfl) b

/-- No operation changes which columns exist or their order. -/
theorem execOp_map_id (b : Board) (op : Op) :
    (execOp b op).map Column.id = b.map Column.id := by
  cases op with
  | load snap => exact loadData_map_id b snap
  | submit m => exact formSubmit_map_id b m
  | deleteTask ci cj conf =>
    cases conf with
    | false => rfl
    | true => exact modifyAt_map Column.id _ (fun c => by simp) ci b
  | dropTask si j ti =>
    cases hm : (b[si]?).bind (fun c => c.cards[j]?) with
    | none =>
      show ((dropHandler b si j ti).fst).map Column.id = b.map Column.id
      rw [dropHandler_eq_of_none b si j ti hm]
    | some card =>
      show ((dropHandler b si j ti).fst).map Column.id = b.map Column.id
      rw [dropHandler_eq_of_some b si j ti card hm]
      rw [show (modifyAt
            (fun c => updateCount { c with cards := c.cards ++ [updateCardButtons card c.id] }) ti
            (modifyAt (fun c => { c with cards := c.cards.eraseIdx j }) si b),
          [saveData
            (modifyAt
              (fun c => updateCount { c with cards := c.cards ++ [updateCardButtons card c.id] })
              ti (modifyAt (fun c => { c with cards := c.cards.eraseIdx j }) si b))]).fst
          = modifyAt
              (fun c => updateCount { c with cards := c.cards ++ [updateCardButtons card c.id] })
              ti (modifyAt (fun c => { c with cards := c.cards.eraseIdx j }) si b) from rfl]
      rw [modifyAt_map Column.id
            (fun c => updateCount { c with cards := c.cards ++ [updateCardButtons card c.id] })
            (fun c => by simp) ti _,
        modifyAt_map Column.id (fun c => { c with cards := c.cards.eraseIdx j })
          (fun c => rfl) si b]
  | dragEnd => rfl

/-- No operation sequence changes which columns exist or their order. -/
theorem execOps_map_id (ops : List Op) :
    ∀ b : Board, (execOps b ops).map Column.id = b.map Column.id := by
  induction ops with
  | nil => intro b; rfl
  | cons op rest ih => intro b; exact (ih (execOp b op)).trans (execOp_map_id b op)

/-- Claim C1: for every board state reachable by a sequence of add, edit,
delete and move operations (from a layout with distinct column ids),
serializing with `saveData` and rebuilding with `loadData` yields a board
with the same tasks (title and description), per column, in the same
order; the snapshot covers every column by construction (claim C10). -/
theorem c1_save_load_roundtrip (init : Board) (ops : List Op)
    (h : (init.map Column.id).Nodup) :
    (loadData (execOps init ops) (some (saveData (execOps init ops)))).map
        (fun c => (c.id, c.cards.map cardTask))
      = (execOps init ops).map (fun c => (c.id, c.cards.map cardTask)) :=
  loadData_saveData_roundtrip (execOps init ops)
    (by rw [execOps_map_id]; exact h)

/-- Witness for C1: an add, a move and an edit on the sample board,
followed by the save/load round trip. -/
theorem c1_witness :
    (loadData
        (execOps sampleBoard
          [Op.submit (ModalState.mk none " New " "z" false),
           Op.dropTask 1 0 3,
           Op.submit (ModalState.mk (some (3, 0)) "Adone" "q" false)])
        (some (saveData
          (execOps sampleBoard
            [Op.submit (ModalState.mk none " New " "z" false),
             Op.dropTask 1 0 3,
             Op.submit (ModalState.mk (some (3, 0)) "Adone" "q" false)])))).map
        (fun c => (c.id, c.cards.map cardTask))
      = (execOps sampleBoard
          [Op.submit (ModalState.mk none " New " "z" false),
           Op.dropTask 1 0 3,
           Op.submit (ModalState.mk (some (3, 0)) "Adone" "q" false)]).map
          (fun c => (c.id, c.cards.map cardTask)) :=
  c1_save_load_roundtrip sampleBoard
    [Op.submit (ModalState.mk none " New " "z" false),
     Op.dropTask 1 0 3,
     Op.submit (ModalState.mk (some (3, 0)) "Adone" "q" false)]
    (by decide)

end Kanban
